import Mathlib

/-!
# Verification of `scrape_bga.py` (BGA ladder scraper)

A shallow embedding, in Lean 4, of the ingestion core of the BGA ladder
scraper: entity resolution (`get_or_create_*`), task decomposition
(`insert_task`), trace archiving (`download_and_archive_trace`), flight
ingestion (`insert_bga_flight`) and the pagination driver
(`get_daily_flights`), together with proofs of the specification's claims
about them.

Database tables are modelled as lists of row structures, inserted rows are
appended (sqlite rowid order), and `fetchone` on a `select ... where`
query is modelled by `List.find?`.  The network `fetch` is an input
parameter (either the downloaded bytes or a `NotFound` signal), the disk is
an association list from paths to byte strings, and timestamps are opaque
naturals.  SHA-256 is implemented in full over `Nat` byte lists, matching
Python's `hashlib.sha256(...).hexdigest()`.
-/

namespace BgaScraper

/-! ## SHA-256 over byte lists

A complete implementation of FIPS 180-4 SHA-256 on `List Nat` (bytes),
all word arithmetic carried out modulo `2 ^ 32`, mirroring
`hashlib.sha256(content).hexdigest()` in `download_and_archive_trace`. -/

/-- Truncate to a 32-bit word. -/
def w32 (n : Nat) : Nat := n % 4294967296

/-- Right-rotate a 32-bit word by `n` positions. -/
def rotr (n x : Nat) : Nat := w32 (x / 2 ^ n + x % 2 ^ n * 2 ^ (32 - n))

/-- Logical right shift. -/
def shr (n x : Nat) : Nat := x / 2 ^ n

/-- Bitwise complement within 32 bits (argument assumed already reduced). -/
def not32 (x : Nat) : Nat := Nat.xor x 4294967295

/-- SHA-256 `Ch` function. -/
def ch (e f g : Nat) : Nat := Nat.xor (Nat.land e f) (Nat.land (not32 e) g)

/-- SHA-256 `Maj` function. -/
def maj (a b c : Nat) : Nat :=
  Nat.xor (Nat.xor (Nat.land a b) (Nat.land a c)) (Nat.land b c)

/-- SHA-256 big sigma 0. -/
def bigSigma0 (a : Nat) : Nat := Nat.xor (Nat.xor (rotr 2 a) (rotr 13 a)) (rotr 22 a)

/-- SHA-256 big sigma 1. -/
def bigSigma1 (e : Nat) : Nat := Nat.xor (Nat.xor (rotr 6 e) (rotr 11 e)) (rotr 25 e)

/-- SHA-256 small sigma 0. -/
def smallSigma0 (x : Nat) : Nat := Nat.xor (Nat.xor (rotr 7 x) (rotr 18 x)) (shr 3 x)

/-- SHA-256 small sigma 1. -/
def smallSigma1 (x : Nat) : Nat := Nat.xor (Nat.xor (rotr 17 x) (rotr 19 x)) (shr 10 x)

/-- The 64 SHA-256 round constants of FIPS 180-4 (written in decimal). -/
def shaK : List Nat :=
  [1116352408, 1899447441, 3049323471, 3921009573, 961987163,
   1508970993, 2453635748, 2870763221, 3624381080, 310598401,
   607225278, 1426881987, 1925078388, 2162078206, 2614888103,
   3248222580, 3835390401, 4022224774, 264347078, 604807628,
   770255983, 1249150122, 1555081692, 1996064986, 2554220882,
   2821834349, 2952996808, 3210313671, 3336571891, 3584528711,
   113926993, 338241895, 666307205, 773529912, 1294757372,
   1396182291, 1695183700, 1986661051, 2177026350, 2456956037,
   2730485921, 2820302411, 3259730800, 3345764771, 3516065817,
   3600352804, 4094571909, 275423344, 430227734, 506948616,
   659060556, 883997877, 958139571, 1322822218, 1537002063,
   1747873779, 1955562222, 2024104815, 2227730452, 2361852424,
   2428436474, 2756734187, 3204031479, 3329325298]

/-- The SHA-256 initial hash value of FIPS 180-4 (written in decimal). -/
def shaH0 : List Nat :=
  [1779033703, 3144134277, 1013904242, 2773480762, 1359893119,
   2600822924, 528734635, 1541459225]

/-- `v` as `n` big-endian bytes. -/
def bytesBE : Nat → Nat → List Nat
  | 0, _ => []
  | n + 1, v => bytesBE n (v / 256) ++ [v % 256]

/-- SHA-256 padding: append `0x80`, zeros to 56 mod 64, then the 8-byte
big-endian bit length. -/
def sha256pad (msg : List Nat) : List Nat :=
  let len := msg.length
  let padZeros := (55 + 64 - len % 64) % 64
  msg ++ [128] ++ List.replicate padZeros 0 ++ bytesBE 8 (len * 8)

/-- Split a byte list into 64-byte blocks: structural accumulator loop,
`cur` holds the current partial block reversed, `cnt` its length. -/
def toBlocksAux (cur : List Nat) (cnt : Nat) : List Nat → List (List Nat)
  | [] => if cur.isEmpty then [] else [cur.reverse]
  | b :: rest =>
    if cnt = 63 then (cur.reverse ++ [b]) :: toBlocksAux [] 0 rest
    else toBlocksAux (b :: cur) (cnt + 1) rest

/-- Split a byte list into 64-byte blocks. -/
def toBlocks (l : List Nat) : List (List Nat) := toBlocksAux [] 0 l

/-- Pack bytes into 32-bit big-endian words. -/
def toWords : List Nat → List Nat
  | a :: b :: c :: d :: rest => (((a * 256 + b) * 256 + c) * 256 + d) :: toWords rest
  | _ => []

/-- Extend a 16-word block by `n` message-schedule words. -/
def schedule (w : List Nat) : Nat → List Nat
  | 0 => w
  | n + 1 =>
    let v := schedule w n
    let k := v.length
    v ++ [w32 (smallSigma1 (v.getD (k - 2) 0) + v.getD (k - 7) 0 +
               smallSigma0 (v.getD (k - 15) 0) + v.getD (k - 16) 0)]

/-- The SHA-256 working state: the eight registers `a`–`h`. -/
structure ShaState where
  a : Nat
  b : Nat
  c : Nat
  d : Nat
  e : Nat
  f : Nat
  g : Nat
  h : Nat
deriving DecidableEq, Repr

/-- The 64-round compression loop over the schedule and round constants. -/
def compressLoop : List Nat → List Nat → ShaState → ShaState
  | wi :: ws, ki :: ks, s =>
    let t1 := w32 (s.h + bigSigma1 s.e + ch s.e s.f s.g + ki + wi)
    let t2 := w32 (bigSigma0 s.a + maj s.a s.b s.c)
    compressLoop ws ks ⟨w32 (t1 + t2), s.a, s.b, s.c, w32 (s.d + t1), s.e, s.f, s.g⟩
  | _, _, s => s

/-- Process one 64-byte block against the running hash value. -/
def processBlock (H : List Nat) (block : List Nat) : List Nat :=
  let ws := schedule (toWords block) 48
  let s := compressLoop ws shaK
    ⟨H.getD 0 0, H.getD 1 0, H.getD 2 0, H.getD 3 0,
     H.getD 4 0, H.getD 5 0, H.getD 6 0, H.getD 7 0⟩
  [w32 (H.getD 0 0 + s.a), w32 (H.getD 1 0 + s.b), w32 (H.getD 2 0 + s.c),
   w32 (H.getD 3 0 + s.d), w32 (H.getD 4 0 + s.e), w32 (H.getD 5 0 + s.f),
   w32 (H.getD 6 0 + s.g), w32 (H.getD 7 0 + s.h)]

/-- SHA-256 digest of a byte list, as eight 32-bit words. -/
def sha256 (msg : List Nat) : List Nat :=
  (toBlocks (sha256pad msg)).foldl processBlock shaH0

/-- Lowercase hex digit for `n < 16`. -/
def hexChar (n : Nat) : Char :=
  if n < 10 then Char.ofNat (48 + n) else Char.ofNat (87 + n)

/-- A 32-bit word as 8 lowercase hex characters. -/
def toHex8 (w : Nat) : String :=
  String.mk [hexChar (w / 16 ^ 7 % 16), hexChar (w / 16 ^ 6 % 16),
             hexChar (w / 16 ^ 5 % 16), hexChar (w / 16 ^ 4 % 16),
             hexChar (w / 16 ^ 3 % 16), hexChar (w / 16 ^ 2 % 16),
             hexChar (w / 16 % 16), hexChar (w % 16)]

/-- `hashlib.sha256(bytes).hexdigest()`: the 64-character lowercase hex
digest of a byte list. -/
def sha256hex (msg : List Nat) : String :=
  String.join ((sha256 msg).map toHex8)

/-! ## Data model

One structure per table of the relational schema, a table being a list of
rows in rowid (insertion) order.  Surrogate ids are assigned as sqlite
assigns rowids: one more than the largest id present. -/

/-- A row of the `pilot` table. -/
structure PilotRow where
  id : Nat
  forename : String
  surname : String
  ladder_id : Nat
deriving DecidableEq, Repr

/-- A row of the `club` table.  `club_name` is nullable: a club created by
`get_or_create_club` has only its ladder code set. -/
structure ClubRow where
  id : Nat
  club_name : Option String
  ladder_code : String
deriving DecidableEq, Repr

/-- A row of the `glider_model` table; the rich attributes are nullable and
set only by the bulk prefill, which is outside the ingestion core. -/
structure GliderModelRow where
  id : Nat
  model_name : String
  seats : Option Int
  vintage : Option Int
  turbo : Option Int
  handicap : Option Int
  ladder_id : Nat
deriving DecidableEq, Repr

/-- A row of the `glider` table. -/
structure GliderRow where
  id : Nat
  reg : String
  model : Nat
deriving DecidableEq, Repr

/-- A row of the `task` table: one turnpoint of a task. -/
structure TaskRow where
  id : Nat
  turnpoint_index : Nat
  turnpoint_code : String
deriving DecidableEq, Repr

/-- A row of the `trace` table. -/
structure TraceRow where
  id : Nat
  downloaded_at : Nat
  original_filename : String
  sha256_hash : String
deriving DecidableEq, Repr

/-- A parsed `YYYY-MM-DDTHH:MM:SS` timestamp. -/
structure DateTimeVal where
  year : Nat
  month : Nat
  day : Nat
  hour : Nat
  minute : Nat
  second : Nat
deriving DecidableEq, Repr

/-- A row of the `flight` table, with the columns of the insert in
`insert_bga_flight`. -/
structure FlightRow where
  pilot : Nat
  club : Nat
  glider : Nat
  trace : Option Nat
  flight_date : DateTimeVal
  scraped_at : Nat
  is_weekend : Bool
  is_junior : Bool
  is_height : Bool
  is_two_seater : Bool
  is_wooden : Bool
  has_engine : Bool
  penalty : Int
  task : Nat
  speed : Int
  handicap_speed : Int
  scoring_distance : Int
  speed_points : Int
  height_gain : Int
  height_points : Int
  total_points : Int
  ladder_id : Nat
deriving DecidableEq, Repr

/-- The on-disk archive: an association list from paths (lists of path
components) to file contents, reads taking the first match. -/
abbrev Disk : Type := List (List String × List Nat)

/-- The whole mutable state: the seven relational tables plus the trace
archive directory. -/
structure DB where
  pilot : List PilotRow
  club : List ClubRow
  glider_model : List GliderModelRow
  glider : List GliderRow
  task : List TaskRow
  trace : List TraceRow
  flight : List FlightRow
  disk : Disk
deriving DecidableEq

/-- One flight record of the paged `DailyScores` endpoint, as the fields
`insert_bga_flight` and `insert_task` read from it.  Fields the Python code
accesses with `fd[...]` (a `KeyError` if absent) are plain fields; the
fields read with `fd.get(...)` are optional, `TPs i` standing for
`flight_details.get("TP" ++ toString i)`. -/
structure FlightRecord where
  FlightID : Nat
  Forename : String
  Surname : String
  PilotID : Nat
  ClubID : String
  Glider : String
  GliderCode : Nat
  Registration : String
  LoggerFile : String
  StartPoint : Option String
  TPs : Nat → Option String
  FinishPoint : Option String
  FlightDate : String
  Weekend : Bool
  Junior : Bool
  Height : Bool
  TwoSeater : Bool
  Wood : Bool
  Wooden : Bool
  Engine : Bool
  Penalty : Int
  Speed : Int
  HandicapSpeed : Int
  ScoringDistance : Int
  SpeedPoints : Int
  HeightGain : Int
  HeightPoints : Int
  TotalPoints : Int

/-- The id sqlite assigns to a freshly inserted row: one more than the
largest id in the table. -/
def nextId (ids : List Nat) : Nat := ids.foldr max 0 + 1

deriving instance DecidableEq for Except

/-! ## Entity resolution (`get_or_create_*`)

Each returns the resolved id together with the possibly-extended table.
`.error ()` models an uncaught Python exception: the sqlite uniqueness
violation on `pilot.ladder_id` (the constraint the source comments on),
or `fetchone()[0]` on an empty result. -/

/-- `get_or_create_pilot`: look up by (forename, surname, ladder_id);
if absent, insert and re-query by the unique `ladder_id`. -/
def get_or_create_pilot (t : List PilotRow) (forename surname : String)
    (ladder_id : Nat) : Except Unit (Nat × List PilotRow) :=
  match t.find? (fun r =>
      r.forename = forename && r.surname = surname && r.ladder_id = ladder_id) with
  | some r => .ok (r.id, t)
  | none =>
    if (t.find? (fun r => r.ladder_id = ladder_id)).isSome then .error ()
    else
      let t' := t ++ [⟨nextId (t.map PilotRow.id), forename, surname, ladder_id⟩]
      match t'.find? (fun r => r.ladder_id = ladder_id) with
      | some r => .ok (r.id, t')
      | none => .error ()

/-- `get_or_create_club`: look up by ladder code; if absent, insert a row
with only the code set and re-query by the code. -/
def get_or_create_club (t : List ClubRow) (bgal_club_code : String) :
    Except Unit (Nat × List ClubRow) :=
  match t.find? (fun r => r.ladder_code = bgal_club_code) with
  | some r => .ok (r.id, t)
  | none =>
    let t' := t ++ [⟨nextId (t.map ClubRow.id), none, bgal_club_code⟩]
    match t'.find? (fun r => r.ladder_code = bgal_club_code) with
    | some r => .ok (r.id, t')
    | none => .error ()

/-- `get_or_create_glider_model`: look up by model name; if absent, insert
(name, ladder id) and re-query by the ladder id.  The insert's `.error`
path is the storage layer's uniqueness violation on
`glider_model.ladder_id` — the schema itself (`schema.sql`) is not under
`src/`, so the constraint is modelled from the spec, which declares the
external ladder id unique and makes uniqueness conflicts fatal: inserting
a new model name under an already-stored ladder id raises. -/
def get_or_create_glider_model (t : List GliderModelRow) (model_name : String)
    (bgal_model_id : Nat) : Except Unit (Nat × List GliderModelRow) :=
  match t.find? (fun r => r.model_name = model_name) with
  | some r => .ok (r.id, t)
  | none =>
    if (t.find? (fun r => r.ladder_id = bgal_model_id)).isSome then .error ()
    else
      let t' := t ++ [⟨nextId (t.map GliderModelRow.id), model_name,
                       none, none, none, none, bgal_model_id⟩]
      match t'.find? (fun r => r.ladder_id = bgal_model_id) with
      | some r => .ok (r.id, t')
      | none => .error ()

/-- `get_or_create_glider`: look up by registration; if absent, insert
(reg, model) and re-query by the registration. -/
def get_or_create_glider (t : List GliderRow) (reg : String) (model_id : Nat) :
    Except Unit (Nat × List GliderRow) :=
  match t.find? (fun r => r.reg = reg) with
  | some r => .ok (r.id, t)
  | none =>
    let t' := t ++ [⟨nextId (t.map GliderRow.id), reg, model_id⟩]
    match t'.find? (fun r => r.reg = reg) with
    | some r => .ok (r.id, t')
    | none => .error ()

/-! ## Task decomposition (`insert_task`) -/

/-- `select count(distinct id) from task`. -/
def countDistinctTaskIds (t : List TaskRow) : Nat :=
  (t.map TaskRow.id).dedup.length

/-- `maybe_append` applied to one optional code: the code as a singleton
list when present and non-empty, else nothing. -/
def optCode : Option String → List String
  | none => []
  | some c => if c = "" then [] else [c]

/-- The `TP1, TP2, ...` scan: consume `tps i, tps (i+1), ...` until the
first missing or empty code.  `fuel` bounds the otherwise unbounded
`itertools.count(1)` loop; a flight record is a finite dictionary, so the
scan always stops at the first index past its keys, and any `fuel` at least
that large reproduces the source behaviour. -/
def tpScan (tps : Nat → Option String) : Nat → Nat → List String
  | 0, _ => []
  | fuel + 1, i =>
    match tps i with
    | none => []
    | some c => if c = "" then [] else c :: tpScan tps fuel (i + 1)

/-- The full ordered turnpoint code list of a record: start point, the TP
series, finish point. -/
def turnpoint_codes (fuel : Nat) (fd : FlightRecord) : List String :=
  optCode fd.StartPoint ++ tpScan fd.TPs fuel 1 ++ optCode fd.FinishPoint

/-- `insert_task`: allocate the task id as `count(distinct id)` over the
existing task table, then append one row per captured turnpoint code with
its 0-based position. -/
def insert_task (fuel : Nat) (t : List TaskRow) (fd : FlightRecord) :
    Nat × List TaskRow :=
  let task_id := countDistinctTaskIds t
  let codes := turnpoint_codes fuel fd
  (task_id, t ++ codes.enum.map (fun p => ⟨task_id, p.1, p.2⟩))

/-! ## Trace archiving (`download_and_archive_trace`) -/

/-- `download_and_archive_trace`.  `fetchResult` is the outcome of
`requests_get` on the trace url: `none` models the `NotFound` exception,
`some content` the downloaded bytes.  Returns the trace id (or `none` on a
failed download) with the updated trace table and disk.  The final `none`
branch models the `fetchone()[0]` crash after an insert; it is unreachable,
since the row just inserted matches the re-query. -/
def download_and_archive_trace (fetchResult : Option (List Nat))
    (downloaded_at : Nat) (archive_root : List String) (t : List TraceRow)
    (disk : Disk) (fd : FlightRecord) : Option Nat × List TraceRow × Disk :=
  match fetchResult with
  | none => (none, t, disk)
  | some content =>
    let h := sha256hex content
    match t.find? (fun r => r.sha256_hash = h) with
    | some r => (some r.id, t, disk)
    | none =>
      let full_path := archive_root ++ [h.take 1, (h.drop 1).take 1, h]
      let disk' : Disk := disk ++ [(full_path, content)]
      let t' := t ++ [⟨nextId (t.map TraceRow.id), downloaded_at, fd.LoggerFile, h⟩]
      match t'.find? (fun r => r.sha256_hash = h) with
      | some r => (some r.id, t', disk')
      | none => (none, t', disk')

/-! ## Flight ingestion (`insert_bga_flight`) -/

/-- The numeric value of a decimal digit character. -/
def digitVal (c : Char) : Nat := c.toNat - 48

/-- Modelled from the spec: `datetime.strptime(s, "%Y-%m-%dT%H:%M:%S")`
(the Python standard library, not part of this repository), on the
canonical fixed-width `YYYY-MM-DDTHH:MM:SS` form the ladder service emits;
`none` models the `ValueError` on a malformed date. -/
def parse_flight_date (s : String) : Option DateTimeVal :=
  match s.toList with
  | [y1, y2, y3, y4, c1, m1, m2, c2, d1, d2, c3, h1, h2, c4, n1, n2, c5, s1, s2] =>
    if c1 = '-' && c2 = '-' && c3 = 'T' && c4 = ':' && c5 = ':'
        && ([y1, y2, y3, y4, m1, m2, d1, d2, h1, h2, n1, n2, s1, s2].all Char.isDigit) then
      let y := ((digitVal y1 * 10 + digitVal y2) * 10 + digitVal y3) * 10 + digitVal y4
      let mo := digitVal m1 * 10 + digitVal m2
      let d := digitVal d1 * 10 + digitVal d2
      let h := digitVal h1 * 10 + digitVal h2
      let mi := digitVal n1 * 10 + digitVal n2
      let se := digitVal s1 * 10 + digitVal s2
      if 1 ≤ mo && mo ≤ 12 && 1 ≤ d && d ≤ 31 && h ≤ 23 && mi ≤ 59 && se ≤ 59 then
        some ⟨y, mo, d, h, mi, se⟩
      else none
    else none
  | _ => none

/-- The outcome of `insert_bga_flight` when it does not commit:
`existingFlight` is the `ExistingFlight` exception raised by the
idempotency check, `parseError` the `ValueError` of a malformed flight
date, `dbError` any storage-layer exception out of the `get_or_create`
helpers. -/
inductive IngestError where
  | existingFlight
  | parseError
  | dbError
deriving DecidableEq, Repr

/-- `insert_bga_flight`: the existence check on the flight's ladder id,
then entity resolution, trace archiving, task decomposition, date parsing,
and the append of the flight row.  An `.error` outcome carries no state:
the transaction for this flight is not committed. -/
def insert_bga_flight (fetchResult : Option (List Nat))
    (downloaded_at scraped_at : Nat) (fuel : Nat) (archive_root : List String)
    (db : DB) (fd : FlightRecord) : Except IngestError DB :=
  let ladder_id := fd.FlightID
  if (db.flight.find? (fun r => r.ladder_id = ladder_id)).isSome then
    .error .existingFlight
  else
    match get_or_create_pilot db.pilot fd.Forename fd.Surname fd.PilotID with
    | .error _ => .error .dbError
    | .ok (pilot_id, pt) =>
      match get_or_create_club db.club fd.ClubID with
      | .error _ => .error .dbError
      | .ok (club_id, ct) =>
        match get_or_create_glider_model db.glider_model fd.Glider fd.GliderCode with
        | .error _ => .error .dbError
        | .ok (glider_model_id, gmt) =>
          match get_or_create_glider db.glider fd.Registration glider_model_id with
          | .error _ => .error .dbError
          | .ok (glider_id, gt) =>
            let adt := download_and_archive_trace fetchResult downloaded_at
              archive_root db.trace db.disk fd
            let tk := insert_task fuel db.task fd
            match parse_flight_date fd.FlightDate with
            | none => .error .parseError
            | some flight_date =>
              .ok ⟨pt, ct, gmt, gt, tk.2, adt.2.1,
                db.flight ++ [⟨pilot_id, club_id, glider_id, adt.1, flight_date,
                  scraped_at, fd.Weekend, fd.Junior, fd.Height, fd.TwoSeater,
                  fd.Wood || fd.Wooden, fd.Engine, fd.Penalty, tk.1,
                  fd.Speed, fd.HandicapSpeed, fd.ScoringDistance, fd.SpeedPoints,
                  fd.HeightGain, fd.HeightPoints, fd.TotalPoints, ladder_id⟩],
                adt.2.2⟩

/-! ## Pagination (`get_daily_flights`) and the day-scrape query -/

/-- `get_daily_flights`, driven by an abstract paged source `pages`
mapping a 1-based page number to the `rows` array the endpoint returns for
that page.  `fuel` bounds the otherwise unbounded `itertools.count(1)`
loop; `none` means the loop did not terminate within `fuel` requests.  On
termination returns `(total_found, last page requested, the records passed
to the callback in order)`. -/
def get_daily_flights (pages : Nat → List FlightRecord) (page_size : Nat) :
    Nat → Nat → Nat → List FlightRecord → Option (Nat × Nat × List FlightRecord)
  | 0, _, _, _ => none
  | fuel + 1, page, total, processed =>
    let flights := pages page
    let processed' := processed ++ flights
    let total' := total + flights.length
    if flights.length < page_size then some (total', page, processed')
    else get_daily_flights pages page_size fuel (page + 1) total' processed'

/-- A calendar date as `scrape_day` receives it. -/
structure QDate where
  year : Nat
  month : Nat
  day : Nat
deriving DecidableEq, Repr

/-- The `(query_season, query_month, query_day)` arguments `scrape_day`
passes to `get_daily_flights` for a date: the source passes
`query_season=query_date.year, query_month=query_date.day,
query_day=query_date.day` — the day also stands where the month belongs. -/
def scrape_day_query (d : QDate) : Nat × Option Nat × Option Nat :=
  (d.year, some d.day, some d.day)

/-! ## Concrete sample data used by witnesses -/

/-- A representative flight record: start point `A`, `TP1 = B`, `TP2 = C`,
a gap at `TP3` with `TP4 = E` present beyond it, finish point `D`. -/
def fdBase : FlightRecord :=
  { FlightID := 42, Forename := "Jo", Surname := "Smith", PilotID := 7,
    ClubID := "CAM", Glider := "ASW 20", GliderCode := 3, Registration := "G-ABCD",
    LoggerFile := "trace.igc", StartPoint := some "A",
    TPs := fun i => if i = 1 then some "B" else if i = 2 then some "C"
      else if i = 4 then some "E" else none,
    FinishPoint := some "D", FlightDate := "2023-05-01T10:00:00",
    Weekend := true, Junior := false, Height := false, TwoSeater := false,
    Wood := false, Wooden := true, Engine := false, Penalty := 0, Speed := 80,
    HandicapSpeed := 75, ScoringDistance := 300, SpeedPoints := 10,
    HeightGain := 0, HeightPoints := 0, TotalPoints := 10 }

/-- A flight record with no capturable turnpoints: start point absent, no
`TP` keys, finish point present but empty. -/
def fdNoTask : FlightRecord :=
  { fdBase with FlightID := 43, StartPoint := none,
                TPs := fun _ => none, FinishPoint := some "" }

/-- The empty database and archive. -/
def emptyDB : DB := ⟨[], [], [], [], [], [], [], []⟩

/-- The bytes of `b"hello"`. -/
def helloBytes : List Nat := [104, 101, 108, 108, 111]

/-! ## Helper lemmas -/

/-- `find?` over an append whose first part has no match. -/
theorem find?_append_of_none {α : Type} {p : α → Bool} {l1 : List α}
    (l2 : List α) (h : l1.find? p = none) :
    (l1 ++ l2).find? p = l2.find? p := by
  rw [List.find?_append, h, Option.none_or]

/-! ## Claims -/

/-- Claim C2, counterexample: on an empty task table `insert_task`
allocates task id `0`, which is not `count(distinct id) + 1 = 1`. -/
theorem insert_task_id_not_count_succ :
    (insert_task 1 [] fdBase).1 ≠ countDistinctTaskIds [] + 1 := by
  decide

/-- Claim C2, as amended: for every database state the Task Decomposer
allocates the new Task id as exactly the current count of distinct
existing Task ids (`count`, not `count + 1`). -/
theorem insert_task_id_eq_count (fuel : Nat) (t : List TaskRow)
    (fd : FlightRecord) :
    (insert_task fuel t fd).1 = countDistinctTaskIds t := rfl

/-- Claim C3, code bug: for the date 2024-03-15 the day-scrape mode
passes `(season, month, day) = (2024, 15, 15)` to the pagination driver —
the month filter receives the date's day (15), not its month (3), because
the source passes `query_month=query_date.day`. -/
theorem scrape_day_query_month_is_day :
    scrape_day_query ⟨2024, 3, 15⟩ = (2024, some 15, some 15) ∧
      (scrape_day_query ⟨2024, 3, 15⟩).2.1 ≠ some (QDate.mk 2024 3 15).month := by
  decide

/-- Claim C5: archiving the same downloaded bytes a second time is a
no-op returning the same trace id — the second call finds the existing
Trace row by its SHA-256 hash and changes neither the trace table nor the
disk, so one call's output state absorbs every further archive of the same
content. -/
theorem trace_archive_idempotent (bs : List Nat) (t : List TraceRow)
    (d : Disk) (root : List String) (fd1 fd2 : FlightRecord) (at1 at2 : Nat) :
    download_and_archive_trace (some bs) at2 root
        (download_and_archive_trace (some bs) at1 root t d fd1).2.1
        (download_and_archive_trace (some bs) at1 root t d fd1).2.2 fd2 =
      download_and_archive_trace (some bs) at1 root t d fd1 := by
  cases h : t.find? (fun r => r.sha256_hash = sha256hex bs) with
  | some r =>
    simp only [download_and_archive_trace, h]
  | none =>
    have hnew : ((t ++ [(⟨nextId (t.map TraceRow.id), at1, fd1.LoggerFile,
        sha256hex bs⟩ : TraceRow)]).find?
          (fun r => r.sha256_hash = sha256hex bs)) =
        some ⟨nextId (t.map TraceRow.id), at1, fd1.LoggerFile, sha256hex bs⟩ := by
      rw [find?_append_of_none _ h]
      simp [List.find?]
    simp only [download_and_archive_trace, h, hnew]

/-- One processed block is eight words. -/
theorem processBlock_length (H b : List Nat) : (processBlock H b).length = 8 := rfl

/-- Folding `processBlock` preserves the eight-word shape. -/
theorem foldl_processBlock_length :
    ∀ (bs : List (List Nat)) (H : List Nat), H.length = 8 →
      (bs.foldl processBlock H).length = 8
  | [], _, h => h
  | b :: bs, H, _ => foldl_processBlock_length bs (processBlock H b) rfl

/-- A SHA-256 digest is eight words. -/
theorem sha256_length (msg : List Nat) : (sha256 msg).length = 8 :=
  foldl_processBlock_length _ _ rfl

/-- `toHex8` always yields eight characters. -/
theorem toHex8_data_length (w : Nat) : (toHex8 w).data.length = 8 := rfl

/-- The hex digest is always the full 64 characters. -/
theorem sha256hex_length (msg : List Nat) : (sha256hex msg).length = 64 := by
  rw [sha256hex, String.join_eq, String.length_mk, List.length_flatten,
    List.map_map, List.map_map]
  have hl : ((List.length ∘ String.data) ∘ toHex8) = Function.const Nat 8 := by
    funext w
    exact toHex8_data_length w
  rw [hl, List.map_const, List.sum_replicate, sha256_length, smul_eq_mul]

/-- Every character `toHex8` emits is a lowercase hex digit. -/
theorem toHex8_chars (w : Nat) :
    ∀ c ∈ (toHex8 w).data, c ∈ "0123456789abcdef".data := by
  have hx : ∀ n, n < 16 → hexChar n ∈ "0123456789abcdef".data := by decide
  intro c hc
  have hd : (toHex8 w).data =
      [hexChar (w / 16 ^ 7 % 16), hexChar (w / 16 ^ 6 % 16),
       hexChar (w / 16 ^ 5 % 16), hexChar (w / 16 ^ 4 % 16),
       hexChar (w / 16 ^ 3 % 16), hexChar (w / 16 ^ 2 % 16),
       hexChar (w / 16 % 16), hexChar (w % 16)] := rfl
  rw [hd] at hc
  simp only [List.mem_cons, List.not_mem_nil, or_false] at hc
  rcases hc with rfl | rfl | rfl | rfl | rfl | rfl | rfl | rfl <;>
    exact hx _ (Nat.mod_lt _ (by decide))

/-- Every character of the hex digest is a lowercase hex digit. -/
theorem sha256hex_chars (msg : List Nat) :
    ∀ c ∈ (sha256hex msg).data, c ∈ "0123456789abcdef".data := by
  intro c hc
  simp only [sha256hex, String.join_eq, List.map_map, List.mem_flatten] at hc
  obtain ⟨l, hl, hcl⟩ := hc
  obtain ⟨w, _, rfl⟩ := List.mem_map.mp hl
  exact toHex8_chars w c hcl

/-- Claim C6: a downloaded byte string whose hash is not yet archived is
stored at `<archive_root>/<h[0]>/<h[1]>/<h>`, where `h` is the SHA-256 hex
digest of the bytes — always 64 lowercase hex characters — and the file
written holds exactly the downloaded bytes. -/
theorem trace_archive_path_correct (bs : List Nat) (dAt : Nat)
    (root : List String) (t : List TraceRow) (d : Disk) (fd : FlightRecord)
    (hnew : t.find? (fun r => r.sha256_hash = sha256hex bs) = none) :
    download_and_archive_trace (some bs) dAt root t d fd =
      (some (nextId (t.map TraceRow.id)),
       t ++ [⟨nextId (t.map TraceRow.id), dAt, fd.LoggerFile, sha256hex bs⟩],
       d ++ [(root ++ [(sha256hex bs).take 1, ((sha256hex bs).drop 1).take 1,
                       sha256hex bs], bs)]) ∧
    (sha256hex bs).length = 64 ∧
    ∀ c ∈ (sha256hex bs).data, c ∈ "0123456789abcdef".data := by
  refine ⟨?_, sha256hex_length bs, sha256hex_chars bs⟩
  have hfind : ((t ++ [(⟨nextId (t.map TraceRow.id), dAt, fd.LoggerFile,
      sha256hex bs⟩ : TraceRow)]).find?
        (fun r => r.sha256_hash = sha256hex bs)) =
      some ⟨nextId (t.map TraceRow.id), dAt, fd.LoggerFile, sha256hex bs⟩ := by
    rw [find?_append_of_none _ hnew]
    simp [List.find?]
  simp only [download_and_archive_trace, hnew, hfind]

set_option maxRecDepth 100000 in
/-- Witness for C6, at the spec's own test vector `b"hello"`: the digest
is `2cf24dba…9824`, the path's final directory levels are `2` and `c`, and
the file written holds exactly the five input bytes. -/
theorem trace_archive_path_correct_hello :
    download_and_archive_trace (some helloBytes) 5 ["traces"] [] [] fdBase =
      (some 1,
       [⟨1, 5, "trace.igc",
         "2cf24dba5fb0a30e26e83b2ac5b9e29e1b161e5c1fa7425e73043362938b9824"⟩],
       [(["traces", "2", "c",
          "2cf24dba5fb0a30e26e83b2ac5b9e29e1b161e5c1fa7425e73043362938b9824"],
         helloBytes)]) :=
  (trace_archive_path_correct helloBytes 5 ["traces"] [] [] fdBase rfl).1.trans
    (by decide)

/-- At most one element of a list with pairwise-distinct keys satisfies a
predicate that pins the key to one value. -/
theorem filter_length_le_one {α β : Type} (key : α → β) (l : List α)
    (p : α → Bool) (v : β)
    (hpw : l.Pairwise (fun a b => key a ≠ key b))
    (hp : ∀ a, p a = true → key a = v) :
    (l.filter p).length ≤ 1 := by
  induction l with
  | nil => simp
  | cons a l ih =>
    rw [List.pairwise_cons] at hpw
    obtain ⟨ha, hl⟩ := hpw
    by_cases hpa : p a = true
    · rw [List.filter_cons_of_pos hpa]
      have hnil : l.filter p = [] := by
        rw [List.filter_eq_nil_iff]
        intro b hb hpb
        exact ha b hb (by rw [hp a hpa, hp b hpb])
      rw [hnil]
      simp
    · rw [List.filter_cons_of_neg (by simpa using hpa)]
      exact ih hl

/-- Claim C9: the Entity Resolver is stable — under the storage layer's
uniqueness of the natural keys, a second `get_or_create` call with the same
key returns the very same id and table, and exactly one row for that key is
in storage after a successful call; a club row created this way carries
only the ladder code (name left null). -/
theorem get_or_create_stable (tp : List PilotRow) (tc : List ClubRow)
    (f s : String) (lid : Nat) (code : String)
    (hpw : tp.Pairwise (fun a b => a.ladder_id ≠ b.ladder_id))
    (hcw : tc.Pairwise (fun a b => a.ladder_code ≠ b.ladder_code)) :
    (∀ id1 t1, get_or_create_pilot tp f s lid = .ok (id1, t1) →
      get_or_create_pilot t1 f s lid = .ok (id1, t1) ∧
      (t1.filter (fun r =>
        r.forename = f && r.surname = s && r.ladder_id = lid)).length = 1) ∧
    (∀ id1 t1, get_or_create_club tc code = .ok (id1, t1) →
      get_or_create_club t1 code = .ok (id1, t1) ∧
      (t1.filter (fun r => r.ladder_code = code)).length = 1 ∧
      (t1 = tc ∨ t1 = tc ++ [⟨nextId (tc.map ClubRow.id), none, code⟩])) := by
  constructor
  · intro id1 t1 h
    cases hfind : tp.find? (fun r =>
        r.forename = f && r.surname = s && r.ladder_id = lid) with
    | some r =>
      simp only [get_or_create_pilot, hfind, Except.ok.injEq,
        Prod.mk.injEq] at h
      obtain ⟨rfl, rfl⟩ := h
      refine ⟨by simp only [get_or_create_pilot, hfind], ?_⟩
      have hmemt : r ∈ tp := List.mem_of_find?_eq_some hfind
      have hpr := List.find?_some hfind
      have hmem : r ∈ tp.filter (fun r =>
          r.forename = f && r.surname = s && r.ladder_id = lid) :=
        List.mem_filter.mpr ⟨hmemt, hpr⟩
      have hle := filter_length_le_one PilotRow.ladder_id tp
        (fun r => r.forename = f && r.surname = s && r.ladder_id = lid) lid hpw
        (by intro a hpa; simp at hpa; exact hpa.2)
      have hpos : 0 < (tp.filter (fun r =>
          r.forename = f && r.surname = s && r.ladder_id = lid)).length :=
        List.length_pos.mpr (fun hnil => by rw [hnil] at hmem; cases hmem)
      omega
    | none =>
      by_cases hlid : (tp.find? (fun r => r.ladder_id = lid)).isSome
      · simp only [get_or_create_pilot, hfind, hlid, if_true] at h
        cases h
      · rw [Option.not_isSome_iff_eq_none] at hlid
        have hnewfind : ((tp ++ [(⟨nextId (tp.map PilotRow.id), f, s, lid⟩ :
            PilotRow)]).find? (fun r => r.ladder_id = lid)) =
            some ⟨nextId (tp.map PilotRow.id), f, s, lid⟩ := by
          rw [find?_append_of_none _ hlid]
          simp [List.find?]
        simp only [get_or_create_pilot, hfind, hlid, hnewfind,
          Option.isSome_none, Bool.false_eq_true, if_false,
          Except.ok.injEq, Prod.mk.injEq] at h
        obtain ⟨rfl, rfl⟩ := h
        have hkeyfind : ((tp ++ [(⟨nextId (tp.map PilotRow.id), f, s, lid⟩ :
            PilotRow)]).find? (fun r =>
              r.forename = f && r.surname = s && r.ladder_id = lid)) =
            some ⟨nextId (tp.map PilotRow.id), f, s, lid⟩ := by
          rw [find?_append_of_none _ hfind]
          simp [List.find?]
        refine ⟨by simp only [get_or_create_pilot, hkeyfind], ?_⟩
        rw [List.filter_append, List.filter_eq_nil_iff.mpr
          (fun a ha hpa => by
            rw [List.find?_eq_none] at hfind
            exact hfind a ha hpa)]
        simp
  · intro id1 t1 h
    cases hfind : tc.find? (fun r => r.ladder_code = code) with
    | some r =>
      simp only [get_or_create_club, hfind, Except.ok.injEq,
        Prod.mk.injEq] at h
      obtain ⟨rfl, rfl⟩ := h
      refine ⟨by simp only [get_or_create_club, hfind], ?_, Or.inl rfl⟩
      have hmemt : r ∈ tc := List.mem_of_find?_eq_some hfind
      have hpr := List.find?_some hfind
      have hmem : r ∈ tc.filter (fun r => r.ladder_code = code) :=
        List.mem_filter.mpr ⟨hmemt, hpr⟩
      have hle := filter_length_le_one ClubRow.ladder_code tc
        (fun r => r.ladder_code = code) code hcw
        (by intro a hpa; simpa using hpa)
      have hpos : 0 < (tc.filter (fun r => r.ladder_code = code)).length :=
        List.length_pos.mpr (fun hnil => by rw [hnil] at hmem; cases hmem)
      omega
    | none =>
      have hnewfind : ((tc ++ [(⟨nextId (tc.map ClubRow.id), none, code⟩ :
          ClubRow)]).find? (fun r => r.ladder_code = code)) =
          some ⟨nextId (tc.map ClubRow.id), none, code⟩ := by
        rw [find?_append_of_none _ hfind]
        simp [List.find?]
      simp only [get_or_create_club, hfind, hnewfind, Except.ok.injEq,
        Prod.mk.injEq] at h
      obtain ⟨rfl, rfl⟩ := h
      refine ⟨by simp only [get_or_create_club, hnewfind], ?_, Or.inr rfl⟩
      rw [List.filter_append, List.filter_eq_nil_iff.mpr
        (fun a ha hpa => by
          rw [List.find?_eq_none] at hfind
          exact hfind a ha hpa)]
      simp

/-- Witness for C9: on an initially empty store, resolving pilot
(Jo Smith, ladder id 7) and club `CAM` a second time returns the same ids
over the same single-row tables. -/
theorem get_or_create_stable_witness :
    (get_or_create_pilot [⟨1, "Jo", "Smith", 7⟩] "Jo" "Smith" 7 =
       .ok (1, [⟨1, "Jo", "Smith", 7⟩]) ∧
     (([(⟨1, "Jo", "Smith", 7⟩ : PilotRow)]).filter (fun r =>
        r.forename = "Jo" && r.surname = "Smith" && r.ladder_id = 7)).length
       = 1) ∧
    (get_or_create_club [⟨1, none, "CAM"⟩] "CAM" =
       .ok (1, [⟨1, none, "CAM"⟩]) ∧
     (([(⟨1, none, "CAM"⟩ : ClubRow)]).filter
        (fun r => r.ladder_code = "CAM")).length = 1 ∧
     (([(⟨1, none, "CAM"⟩ : ClubRow)]) = ([] : List ClubRow) ∨
      ([(⟨1, none, "CAM"⟩ : ClubRow)]) =
        ([] : List ClubRow) ++ [⟨nextId (([] : List ClubRow).map ClubRow.id),
          none, "CAM"⟩])) := by
  have h := get_or_create_stable [] [] "Jo" "Smith" 7 "CAM"
    List.Pairwise.nil List.Pairwise.nil
  exact ⟨h.1 1 [⟨1, "Jo", "Smith", 7⟩] (by decide),
         h.2 1 [⟨1, none, "CAM"⟩] (by decide)⟩

/-- The `TP` scan consumes exactly the indices before the first gap: if
every index in `[i, g)` holds a non-empty code and `g` is missing or
empty, the scan from `i` yields those codes in index order, for any fuel
covering the interval. -/
theorem tpScan_eq (tps : Nat → Option String) (g : Nat)
    (hgap : tps g = none ∨ tps g = some "") :
    ∀ fuel i, i ≤ g → g - i ≤ fuel →
      (∀ j, j < g → i ≤ j → tps j ≠ none ∧ tps j ≠ some "") →
      tpScan tps fuel i =
        (List.range' i (g - i)).map (fun j => (tps j).getD "") := by
  intro fuel
  induction fuel with
  | zero =>
    intro i hig hfuel _
    have h0 : g - i = 0 := by omega
    simp [tpScan, h0]
  | succ fuel ih =>
    intro i hig hfuel hpres
    by_cases hieq : i = g
    · subst hieq
      have h0 : i - i = 0 := by omega
      rcases hgap with hn | he
      · simp [tpScan, hn, h0]
      · simp [tpScan, he, h0]
    · have hlt : i < g := by omega
      obtain ⟨hnn, hne⟩ := hpres i hlt (le_refl i)
      cases hc : tps i with
      | none => exact absurd hc hnn
      | some c =>
        have hcne : c ≠ "" := by
          intro hce
          rw [hce] at hc
          exact hne hc
        have hstep : tpScan tps (fuel + 1) i = c :: tpScan tps fuel (i + 1) := by
          simp [tpScan, hc, hcne]
        rw [hstep,
          ih (i + 1) (by omega) (by omega) (fun j hj hij => hpres j hj (by omega))]
        have hr : g - i = (g - (i + 1)) + 1 := by omega
        rw [hr, List.range'_succ, List.map_cons]
        simp [hc]

/-- Claim C4: the turnpoint sequence is the start point code (when present
and non-empty), then the `TP` series up to the first missing or empty
index — codes past the gap are ignored — then the finish point code (when
present and non-empty); `insert_task` writes each captured code with its
0-based position. -/
theorem task_decomposition (fd : FlightRecord) (t : List TaskRow)
    (fuel g : Nat) (hg : 1 ≤ g) (hfuel : g - 1 ≤ fuel)
    (hpres : ∀ j, j < g → 1 ≤ j → fd.TPs j ≠ none ∧ fd.TPs j ≠ some "")
    (hgap : fd.TPs g = none ∨ fd.TPs g = some "") :
    turnpoint_codes fuel fd =
      optCode fd.StartPoint ++
        (List.range' 1 (g - 1)).map (fun j => (fd.TPs j).getD "") ++
        optCode fd.FinishPoint ∧
    insert_task fuel t fd =
      (countDistinctTaskIds t,
       t ++ (turnpoint_codes fuel fd).enum.map
         (fun p => ⟨countDistinctTaskIds t, p.1, p.2⟩)) := by
  constructor
  · rw [turnpoint_codes, tpScan_eq fd.TPs g hgap fuel 1 hg hfuel hpres]
  · rfl

/-- Witness for C4, at the spec's example shapes: `fdBase` has start `A`,
`TP1 = B`, `TP2 = C`, a gap at `TP3`, `TP4 = E` beyond the gap, and finish
`D`; the captured sequence is `[A, B, C, D]` at positions `[0, 1, 2, 3]`
and `E` is ignored. -/
theorem task_decomposition_witness :
    turnpoint_codes 3 fdBase = ["A", "B", "C", "D"] ∧
    insert_task 3 [] fdBase =
      (0, [⟨0, 0, "A"⟩, ⟨0, 1, "B"⟩, ⟨0, 2, "C"⟩, ⟨0, 3, "D"⟩]) := by
  have h := task_decomposition fdBase [] 3 3 (by decide) (by decide)
    (by decide) (by decide)
  exact ⟨h.1.trans (by decide), h.2.trans (by decide)⟩

/-- Running the pagination loop from any page: if page `k` is the first
short page at or after the current one, the loop performs the remaining
requests up to `k` and accumulates every record in arrival order. -/
theorem get_daily_flights_run (pages : Nat → List FlightRecord) (k : Nat)
    (hshort : (pages k).length < 100) :
    ∀ fuel page total processed, page ≤ k → k - page < fuel →
      (∀ j, j < k → page ≤ j → (pages j).length = 100) →
      get_daily_flights pages 100 fuel page total processed =
        some (total + ((List.range' page (k - page + 1)).map
                (fun j => (pages j).length)).sum,
              k,
              processed ++ ((List.range' page (k - page + 1)).map pages).flatten)
    := by
  intro fuel
  induction fuel with
  | zero =>
    intro page total processed _ hf _
    omega
  | succ fuel ih =>
    intro page total processed hpk hf hfull
    by_cases hpe : page = k
    · subst hpe
      rw [get_daily_flights, if_pos hshort]
      have h1 : page - page + 1 = 1 := by omega
      rw [h1, List.range'_one]
      simp
    · have hlt : page < k := by omega
      have hfp := hfull page hlt (le_refl page)
      rw [get_daily_flights, if_neg (by rw [hfp]; omega),
        ih (page + 1) (total + (pages page).length) (processed ++ pages page)
          (by omega) (by omega) (fun j hj hij => hfull j hj (by omega))]
      have hr : k - page + 1 = (k - (page + 1) + 1) + 1 := by omega
      rw [hr, List.range'_succ, List.map_cons, List.map_cons,
        List.sum_cons, List.flatten_cons]
      simp [List.range'_succ, Nat.add_assoc, List.append_assoc]

/-- Claim C7: the pagination driver requests successive 1-based pages of
size 100; when page `k` is the first page shorter than 100 records, it
stops after exactly `k` requests, has invoked the callback once per record
in arrival order, and returns the total record count over pages `1..k` —
in particular a trailing exact-multiple run issues one extra request that
contributes 0 records. -/
theorem pagination_short_page (pages : Nat → List FlightRecord)
    (k fuel : Nat) (hk : 1 ≤ k) (hfuel : k ≤ fuel)
    (hshort : (pages k).length < 100)
    (hfull : ∀ j, j < k → 1 ≤ j → (pages j).length = 100) :
    get_daily_flights pages 100 fuel 1 0 [] =
      some (((List.range' 1 k).map (fun j => (pages j).length)).sum, k,
            ((List.range' 1 k).map pages).flatten) := by
  have h := get_daily_flights_run pages k hshort fuel 1 0 [] hk (by omega) hfull
  rw [h]
  have hk1 : k - 1 + 1 = k := by omega
  rw [hk1]
  simp

/-- A paged source with pages of sizes `100, 100, 47, 0, 0, …`. -/
def pagesA : Nat → List FlightRecord := fun p =>
  if p ≤ 2 then List.replicate 100 fdBase
  else if p = 3 then List.replicate 47 fdBase
  else []

/-- A paged source with pages of sizes `100, 100, 100, 0, 0, …`. -/
def pagesB : Nat → List FlightRecord := fun p =>
  if p ≤ 3 then List.replicate 100 fdBase else []

/-- Witness for C7: pages of sizes `[100, 100, 47]` give 247 records over
exactly 3 requests; pages of sizes `[100, 100, 100]` force a 4th request
that contributes 0 records, for a total of 300 over 4 requests. -/
theorem pagination_short_page_witness :
    (get_daily_flights pagesA 100 3 1 0 [] =
      some (247, 3, ((List.range' 1 3).map pagesA).flatten)) ∧
    (get_daily_flights pagesB 100 4 1 0 [] =
      some (300, 4, ((List.range' 1 4).map pagesB).flatten)) := by
  have ha := pagination_short_page pagesA 3 3 (by decide) (by decide)
    (by decide) (by decide)
  have hb := pagination_short_page pagesB 4 4 (by decide) (by decide)
    (by decide) (by decide)
  have hsa : ((List.range' 1 3).map (fun j => (pagesA j).length)).sum = 247 := by
    decide
  have hsb : ((List.range' 1 4).map (fun j => (pagesB j).length)).sum = 300 := by
    decide
  rw [hsa] at ha
  rw [hsb] at hb
  exact ⟨ha, hb⟩

/-- Inversion of a committed flight ingestion: a successful
`insert_bga_flight` implies the ladder id was absent, and the new state is
the old one with the resolved tables, the decomposed task, the archiver's
trace table and disk, and exactly one appended flight row carrying the
record's ladder id, the archiver's trace id and the allocated task id. -/
theorem insert_bga_flight_ok_inv (fetch : Option (List Nat))
    (dAt sAt fuel : Nat) (root : List String) (db : DB) (fd : FlightRecord)
    (db1 : DB) (h : insert_bga_flight fetch dAt sAt fuel root db fd = .ok db1) :
    db.flight.find? (fun r => r.ladder_id = fd.FlightID) = none ∧
    db1.task = (insert_task fuel db.task fd).2 ∧
    db1.trace = (download_and_archive_trace fetch dAt root db.trace db.disk fd).2.1 ∧
    db1.disk = (download_and_archive_trace fetch dAt root db.trace db.disk fd).2.2 ∧
    ∃ frow : FlightRow,
      db1.flight = db.flight ++ [frow] ∧
      frow.ladder_id = fd.FlightID ∧
      frow.trace = (download_and_archive_trace fetch dAt root db.trace db.disk fd).1 ∧
      frow.task = countDistinctTaskIds db.task := by
  rw [insert_bga_flight] at h
  by_cases hex : (db.flight.find? (fun r => r.ladder_id = fd.FlightID)).isSome
  · rw [if_pos hex] at h
    cases h
  · rw [if_neg hex] at h
    rw [Option.not_isSome_iff_eq_none] at hex
    refine ⟨hex, ?_⟩
    cases hp : get_or_create_pilot db.pilot fd.Forename fd.Surname fd.PilotID with
    | error e =>
      simp only [hp] at h
      exact Except.noConfusion h
    | ok p =>
      obtain ⟨pid, pt⟩ := p
      simp only [hp] at h
      cases hc : get_or_create_club db.club fd.ClubID with
      | error e =>
        simp only [hc] at h
        exact Except.noConfusion h
      | ok q =>
        obtain ⟨cid, ct⟩ := q
        simp only [hc] at h
        cases hgm : get_or_create_glider_model db.glider_model fd.Glider
            fd.GliderCode with
        | error e =>
          simp only [hgm] at h
          exact Except.noConfusion h
        | ok q2 =>
          obtain ⟨gmid, gmt⟩ := q2
          simp only [hgm] at h
          cases hg : get_or_create_glider db.glider fd.Registration gmid with
          | error e =>
            simp only [hg] at h
            exact Except.noConfusion h
          | ok q3 =>
            obtain ⟨gid, gt⟩ := q3
            simp only [hg] at h
            cases hd : parse_flight_date fd.FlightDate with
            | none =>
              simp only [hd] at h
              exact Except.noConfusion h
            | some dv =>
              simp only [hd, Except.ok.injEq] at h
              subst h
              exact ⟨rfl, rfl, rfl, _, rfl, rfl, rfl, rfl⟩

/-- Claim C1: the Flight Ingestor is idempotent on the flight's external
ladder id — when a flight row with the record's id already exists the call
signals `ExistingFlight` (in the functional model an `.error` outcome
carries no state change, matching the source, where the check precedes any
write), and after one successful ingestion exactly one flight row holds
the id while every repeat call, whatever its download outcome, timestamps
or archive root, signals `ExistingFlight`. -/
theorem flight_ingest_idempotent (fetch : Option (List Nat))
    (dAt sAt fuel : Nat) (root : List String) (db : DB) (fd : FlightRecord) :
    ((db.flight.find? (fun r => r.ladder_id = fd.FlightID)).isSome →
      insert_bga_flight fetch dAt sAt fuel root db fd =
        .error .existingFlight) ∧
    ∀ db1, insert_bga_flight fetch dAt sAt fuel root db fd = .ok db1 →
      (db1.flight.filter (fun r => r.ladder_id = fd.FlightID)).length = 1 ∧
      ∀ fetch2 dAt2 sAt2 fuel2 root2,
        insert_bga_flight fetch2 dAt2 sAt2 fuel2 root2 db1 fd =
          .error .existingFlight := by
  constructor
  · intro hex
    rw [insert_bga_flight, if_pos hex]
  · intro db1 h
    obtain ⟨hnone, _, _, _, frow, hfl, hlad, _, _⟩ :=
      insert_bga_flight_ok_inv fetch dAt sAt fuel root db fd db1 h
    have hfsome : db1.flight.find? (fun r => r.ladder_id = fd.FlightID) =
        some frow := by
      rw [hfl, find?_append_of_none _ hnone]
      simp [List.find?, hlad]
    constructor
    · rw [hfl, List.filter_append, List.filter_eq_nil_iff.mpr
        (fun a ha hpa => by
          rw [List.find?_eq_none] at hnone
          exact hnone a ha hpa)]
      simp [List.filter, hlad]
    · intro fetch2 dAt2 sAt2 fuel2 root2
      rw [insert_bga_flight, if_pos (by rw [hfsome]; rfl)]

/-- The state after ingesting `fdBase` into the empty database with an
absent trace download. -/
def dbAfter : DB :=
  match insert_bga_flight none 5 6 4 ["traces"] emptyDB fdBase with
  | .ok d => d
  | .error _ => emptyDB

/-- Witness for C1: ingesting `fdBase` into the empty database commits
exactly one flight row with ladder id 42, and re-ingesting the same record
against the resulting state — even with a different download outcome and
timestamps — signals `ExistingFlight`. -/
theorem flight_ingest_idempotent_witness :
    (dbAfter.flight.filter (fun r => r.ladder_id = fdBase.FlightID)).length
      = 1 ∧
    insert_bga_flight (some helloBytes) 7 8 9 ["x"] dbAfter fdBase =
      .error .existingFlight := by
  have h := (flight_ingest_idempotent none 5 6 4 ["traces"] emptyDB fdBase).2
    dbAfter (by decide)
  exact ⟨h.1, h.2 (some helloBytes) 7 8 9 ["x"]⟩

/-- `get_or_create_club` always succeeds: the re-query after an insert
finds the row just inserted. -/
theorem get_or_create_club_ok (t : List ClubRow) (code : String) :
    ∃ p, get_or_create_club t code = .ok p := by
  cases hfind : t.find? (fun r => r.ladder_code = code) with
  | some r => exact ⟨(r.id, t), by simp only [get_or_create_club, hfind]⟩
  | none =>
    have hnew : ((t ++ [(⟨nextId (t.map ClubRow.id), none, code⟩ :
        ClubRow)]).find? (fun r => r.ladder_code = code)) =
        some ⟨nextId (t.map ClubRow.id), none, code⟩ := by
      rw [find?_append_of_none _ hfind]
      simp [List.find?]
    exact ⟨(nextId (t.map ClubRow.id),
            t ++ [⟨nextId (t.map ClubRow.id), none, code⟩]),
      by simp only [get_or_create_club, hfind, hnew]⟩

/-- `get_or_create_glider` always succeeds: the re-query by registration
finds the row just inserted. -/
theorem get_or_create_glider_ok (t : List GliderRow) (reg : String)
    (model_id : Nat) :
    ∃ p, get_or_create_glider t reg model_id = .ok p := by
  cases hfind : t.find? (fun r => r.reg = reg) with
  | some r => exact ⟨(r.id, t), by simp only [get_or_create_glider, hfind]⟩
  | none =>
    have hnew : ((t ++ [(⟨nextId (t.map GliderRow.id), reg, model_id⟩ :
        GliderRow)]).find? (fun r => r.reg = reg)) =
        some ⟨nextId (t.map GliderRow.id), reg, model_id⟩ := by
      rw [find?_append_of_none _ hfind]
      simp [List.find?]
    exact ⟨(nextId (t.map GliderRow.id),
            t ++ [⟨nextId (t.map GliderRow.id), reg, model_id⟩]),
      by simp only [get_or_create_glider, hfind, hnew]⟩

/-- Claim C8: a `NotFound` trace download is converted to an absent trace
— the archiver returns `none` and touches nothing — and the Flight
Ingestor still commits the flight: whenever the record is new, its date
parses, and pilot and glider-model resolution succeed (their inserts can
hit the storage layer's ladder-id uniqueness constraint, a failure mode
orthogonal to the trace), ingestion with a failed download returns `.ok`,
leaves trace table and disk untouched, and appends the flight row with a
null trace reference. -/
theorem trace_absent_tolerated (dAt sAt fuel : Nat) (root : List String)
    (db : DB) (fd : FlightRecord) (t : List TraceRow) (d : Disk)
    (hnoflight : db.flight.find? (fun r => r.ladder_id = fd.FlightID) = none)
    (hdate : ∃ dv, parse_flight_date fd.FlightDate = some dv)
    (hpilot : ∃ p, get_or_create_pilot db.pilot fd.Forename fd.Surname
      fd.PilotID = .ok p)
    (hmodel : ∃ p, get_or_create_glider_model db.glider_model fd.Glider
      fd.GliderCode = .ok p) :
    download_and_archive_trace none dAt root t d fd = (none, t, d) ∧
    ∃ db1, insert_bga_flight none dAt sAt fuel root db fd = .ok db1 ∧
      db1.trace = db.trace ∧ db1.disk = db.disk ∧
      ∃ frow, db1.flight = db.flight ++ [frow] ∧
        frow.trace = none ∧ frow.ladder_id = fd.FlightID := by
  refine ⟨rfl, ?_⟩
  obtain ⟨⟨pid, pt⟩, hp⟩ := hpilot
  obtain ⟨⟨cid, ct⟩, hc⟩ := get_or_create_club_ok db.club fd.ClubID
  obtain ⟨⟨gmid, gmt⟩, hgm⟩ := hmodel
  obtain ⟨⟨gid, gt⟩, hg⟩ := get_or_create_glider_ok db.glider fd.Registration gmid
  obtain ⟨dv, hdv⟩ := hdate
  refine ⟨⟨pt, ct, gmt, gt, (insert_task fuel db.task fd).2, db.trace,
      db.flight ++ [⟨pid, cid, gid, none, dv, sAt, fd.Weekend, fd.Junior,
        fd.Height, fd.TwoSeater, fd.Wood || fd.Wooden, fd.Engine,
        fd.Penalty, (insert_task fuel db.task fd).1, fd.Speed,
        fd.HandicapSpeed, fd.ScoringDistance, fd.SpeedPoints,
        fd.HeightGain, fd.HeightPoints, fd.TotalPoints, fd.FlightID⟩],
      db.disk⟩, ?_, rfl, rfl, _, rfl, rfl, rfl⟩
  rw [insert_bga_flight, if_neg (by rw [hnoflight]; simp)]
  simp only [hp, hc, hgm, hg, hdv]
  rfl

/-- Witness for C8: ingesting `fdBase` into the empty database with a
`NotFound` trace download still commits the flight, with a null trace. -/
theorem trace_absent_tolerated_witness :
    download_and_archive_trace none 5 ["traces"] [] [] fdBase =
      (none, [], []) ∧
    ∃ db1, insert_bga_flight none 5 6 4 ["traces"] emptyDB fdBase =
        .ok db1 ∧
      db1.trace = emptyDB.trace ∧ db1.disk = emptyDB.disk ∧
      ∃ frow, db1.flight = emptyDB.flight ++ [frow] ∧
        frow.trace = none ∧ frow.ladder_id = fdBase.FlightID :=
  trace_absent_tolerated 5 6 4 ["traces"] emptyDB fdBase [] [] rfl
    ⟨⟨2023, 5, 1, 10, 0, 0⟩, by decide⟩
    ⟨(1, [⟨1, "Jo", "Smith", 7⟩]), by decide⟩
    ⟨(1, [⟨1, "ASW 20", none, none, none, none, 3⟩]), by decide⟩

/-- Claim C10: a record with no capturable start, `TP1` or finish code
still gets a task id — the current distinct-id count — while zero task
rows are written; under the allocator's reachable-state invariant (every
stored task id is below the distinct count) the id is fresh, so a
committed flight for such a record references a task id that has no rows
in the task table. -/
theorem empty_task_flight (fetch : Option (List Nat)) (dAt sAt fuel : Nat)
    (root : List String) (db : DB) (fd : FlightRecord)
    (hs : optCode fd.StartPoint = [])
    (h1 : fd.TPs 1 = none ∨ fd.TPs 1 = some "")
    (hf : optCode fd.FinishPoint = [])
    (hinv : ∀ r ∈ db.task, r.id < countDistinctTaskIds db.task) :
    insert_task fuel db.task fd = (countDistinctTaskIds db.task, db.task) ∧
    (∀ r ∈ db.task, r.id ≠ countDistinctTaskIds db.task) ∧
    ∀ db1, insert_bga_flight fetch dAt sAt fuel root db fd = .ok db1 →
      db1.task = db.task ∧
      ∃ frow, db1.flight = db.flight ++ [frow] ∧
        frow.task = countDistinctTaskIds db.task ∧
        ∀ r ∈ db1.task, r.id ≠ frow.task := by
  have hscan : tpScan fd.TPs fuel 1 = [] := by
    cases fuel with
    | zero => rfl
    | succ n =>
      rcases h1 with hn | he
      · simp [tpScan, hn]
      · simp [tpScan, he]
  have hcodes : turnpoint_codes fuel fd = [] := by
    rw [turnpoint_codes, hs, hf, hscan]
    rfl
  have htask : insert_task fuel db.task fd =
      (countDistinctTaskIds db.task, db.task) := by
    simp [insert_task, hcodes]
  refine ⟨htask, fun r hr => Nat.ne_of_lt (hinv r hr), ?_⟩
  intro db1 h
  obtain ⟨_, htask1, _, _, frow, hfl, _, _, hfrtask⟩ :=
    insert_bga_flight_ok_inv fetch dAt sAt fuel root db fd db1 h
  have htask2 : db1.task = db.task := by
    rw [htask1, htask]
  refine ⟨htask2, frow, hfl, hfrtask, ?_⟩
  intro r hr
  rw [htask2] at hr
  rw [hfrtask]
  exact Nat.ne_of_lt (hinv r hr)

/-- A database whose task table holds the single-turnpoint task `0`. -/
def dbTask1 : DB := ⟨[], [], [], [], [⟨0, 0, "X"⟩], [], [], []⟩

/-- The state after ingesting the taskless record `fdNoTask` into
`dbTask1` with an absent trace download. -/
def dbTask1After : DB :=
  match insert_bga_flight none 5 6 4 ["traces"] dbTask1 fdNoTask with
  | .ok d => d
  | .error _ => dbTask1

/-- Witness for C10: ingesting `fdNoTask` (no start point, no `TP1`,
empty finish point) over a one-task database writes no task rows, and the
committed flight references task id 1, for which no task row exists. -/
theorem empty_task_flight_witness :
    insert_task 4 dbTask1.task fdNoTask =
      (countDistinctTaskIds dbTask1.task, dbTask1.task) ∧
    (dbTask1After.task = dbTask1.task ∧
     ∃ frow, dbTask1After.flight = dbTask1.flight ++ [frow] ∧
       frow.task = countDistinctTaskIds dbTask1.task ∧
       ∀ r ∈ dbTask1After.task, r.id ≠ frow.task) := by
  have h := empty_task_flight none 5 6 4 ["traces"] dbTask1 fdNoTask
    (by decide) (by decide) (by decide) (by decide)
  exact ⟨h.1, h.2.2 dbTask1After (by decide)⟩

end BgaScraper
